import Mathlib

/-!
Shallow embedding of the Turtle DAO instruction processor
(solana_program/src/lib.rs) and proofs about its handlers.

Machine integers are modelled as `Nat` with explicit wrapping: every
arithmetic operation the Rust code performs on a `u64` (resp. `u8`) is
performed modulo `2^64` (resp. `2^8`), matching release-profile wrapping
semantics of the deployed program.  Each handler is embedded as a pure
function from the records it reads, the caller identity, the instruction
payload and the current clock value to an `Except` result carrying the
records it writes and the external transfers it requests.  The platform
collaborators (account creation, lamport transfer) are abstracted: the
embedding records which external operations a handler requests rather
than simulating the ledger.
-/

/-- 2^64, the modulus of `u64` arithmetic. -/
def U64M : Nat := 18446744073709551616

/-- Wrapping `u64` addition, as in a release build. -/
def wadd (a b : Nat) : Nat := (a + b) % U64M

/-- Wrapping `u64` subtraction, as in a release build (operands reduced mod 2^64). -/
def wsub (a b : Nat) : Nat := (a % U64M + U64M - b % U64M) % U64M

/-- Wrapping `u64` multiplication, as in a release build. -/
def wmul (a b : Nat) : Nat := (a * b) % U64M

/-- The `u8` sum `distribution_weights.iter().sum()` computes: a left fold of
wrapping `u8` addition, as in a release build. -/
def u8sum (ws : List Nat) : Nat := ws.foldl (fun a w => (a + w) % 256) 0

/-- Identities (public keys) are modelled as abstract numerals. -/
abbrev Pubkey := Nat

/-- The `ProgramError` values the handlers in lib.rs actually return. -/
inductive ProgramError where
  | invalidInstructionData
  | missingRequiredSignature
  | invalidArgument
  | invalidAccountData
deriving Repr, DecidableEq

/-- `ProposalType` from lib.rs. -/
inductive ProposalType where
  | timeLimit
  | baseFee
  | aiModeration
deriving Repr, DecidableEq

/-- `DaoState` from lib.rs. -/
structure DaoState where
  admin : Pubkey
  time_limit : Nat
  base_fee : Nat
  ai_moderation : Bool
  deposit_share : Nat
  last_activity_timestamp : Nat
  total_deposit : Nat
  active_proposal_count : Nat
  content_count : Nat
  depositor_count : Nat
deriving Repr, DecidableEq

/-- `Content` from lib.rs. -/
structure Content where
  author : Pubkey
  content_hash : String
  content_uri : String
  timestamp : Nat
  votes : Nat
deriving Repr, DecidableEq

/-- `Depositor` from lib.rs. -/
structure Depositor where
  pubkey : Pubkey
  amount : Nat
  locked_until : Nat
  voting_power : Nat
deriving Repr, DecidableEq

/-- `Proposal` from lib.rs. -/
structure Proposal where
  id : Nat
  proposal_type : ProposalType
  new_value : Nat
  voting_end_time : Nat
  yes_votes : Nat
  no_votes : Nat
  is_executed : Bool
deriving Repr, DecidableEq

/-- `process_initialize_dao` from lib.rs: signer check, `deposit_share > 100`
check, then (after requesting creation of the DAO account) the fresh
`DaoState` written to it.  On error no record is produced. -/
def process_init_dao (payer : Pubkey) (is_signer : Bool)
    (time_limit base_fee : Nat) (ai_moderation : Bool) (deposit_share : Nat)
    (now : Nat) : Except ProgramError DaoState :=
  if !is_signer then .error .missingRequiredSignature
  else if deposit_share > 100 then .error .invalidArgument
  else .ok
    { admin := payer
      time_limit := time_limit
      base_fee := base_fee
      ai_moderation := ai_moderation
      deposit_share := deposit_share
      last_activity_timestamp := now
      total_deposit := 0
      active_proposal_count := 0
      content_count := 0
      depositor_count := 0 }

/-- Result of `process_submit_content`: the rewritten `DaoState`, the new
`Content` record, and the base-fee transfer requested from the submitter. -/
structure SubmitResult where
  dao : DaoState
  content : Content
  fee_paid : Nat
deriving Repr, DecidableEq

/-- `process_submit_content` from lib.rs: signer check, base-fee transfer
request, content-account creation request, then the new `Content` record
(`timestamp = now`) and the `DaoState` update
(`last_activity_timestamp = now`, `content_count += 1`). -/
def process_submit_content (submitter : Pubkey) (is_signer : Bool)
    (dao : DaoState) (content_hash content_uri : String) (now : Nat) :
    Except ProgramError SubmitResult :=
  if !is_signer then .error .missingRequiredSignature
  else .ok
    { dao := { dao with
        last_activity_timestamp := now
        content_count := wadd dao.content_count 1 }
      content :=
        { author := submitter
          content_hash := content_hash
          content_uri := content_uri
          timestamp := now
          votes := 0 }
      fee_paid := dao.base_fee }

/-- One week in seconds, the `lock_period` of `process_deposit`. -/
def lock_period : Nat := 7 * 24 * 60 * 60

/-- Result of `process_deposit`: the rewritten `DaoState`, the record now
stored in the supplied depositor slot, and whether the handler requested
`create_account` on that slot (the `!found` branch). -/
structure DepositResult where
  dao : DaoState
  slot : Depositor
  created : Bool
deriving Repr, DecidableEq

/-- `process_deposit` from lib.rs: signer check, transfer request of `amount`
to the pool, then the depositor-slot upsert.  If the slot holds a record whose
`pubkey` equals the caller, that record's `amount` is increased, its lock is
refreshed and `voting_power` is recomputed to equal the new `amount`.
Otherwise (`found == false`, including a slot occupied by a record of a
different identity) the handler requests `create_account` on the slot, writes
a fresh record for the caller, and increments `depositor_count`.  In all
cases `total_deposit += amount`. -/
def process_deposit (depositor : Pubkey) (is_signer : Bool) (dao : DaoState)
    (slot : Option Depositor) (amount now : Nat) :
    Except ProgramError DepositResult :=
  if !is_signer then .error .missingRequiredSignature
  else
    match slot with
    | some d =>
      if d.pubkey = depositor then
        .ok
          { dao := { dao with total_deposit := wadd dao.total_deposit amount }
            slot := { d with
              amount := wadd d.amount amount
              locked_until := wadd now lock_period
              voting_power := wadd d.amount amount }
            created := false }
      else
        .ok
          { dao := { dao with
              total_deposit := wadd dao.total_deposit amount
              depositor_count := wadd dao.depositor_count 1 }
            slot :=
              { pubkey := depositor
                amount := amount
                locked_until := wadd now lock_period
                voting_power := amount }
            created := true }
    | none =>
      .ok
        { dao := { dao with
            total_deposit := wadd dao.total_deposit amount
            depositor_count := wadd dao.depositor_count 1 }
          slot :=
            { pubkey := depositor
              amount := amount
              locked_until := wadd now lock_period
              voting_power := amount }
          created := true }

/-- Result of `process_claim_reward`: the rewritten `DaoState` and the lamport
amount moved from the pool account to the claimer. -/
structure ClaimResult where
  dao : DaoState
  reward : Nat
deriving Repr, DecidableEq

/-- `process_claim_reward` from lib.rs: signer check; `InvalidAccountData` if
the caller is not the content's author; `InvalidArgument` if
`now < last_activity_timestamp + time_limit` or if
`content.timestamp != last_activity_timestamp`; otherwise transfers
`total_deposit - total_deposit * deposit_share / 100` to the claimer and
keeps the quality share in `total_deposit`. -/
def process_claim_reward (claimer : Pubkey) (is_signer : Bool)
    (dao : DaoState) (content : Content) (now : Nat) :
    Except ProgramError ClaimResult :=
  if !is_signer then .error .missingRequiredSignature
  else if content.author ≠ claimer then .error .invalidAccountData
  else if now < wadd dao.last_activity_timestamp dao.time_limit then
    .error .invalidArgument
  else if content.timestamp ≠ dao.last_activity_timestamp then
    .error .invalidArgument
  else
    let quality_share_amount := wmul dao.total_deposit dao.deposit_share / 100
    .ok
      { dao := { dao with total_deposit := quality_share_amount }
        reward := wsub dao.total_deposit quality_share_amount }

/-- `process_create_vote` from lib.rs: signer check, depositor-identity check,
minimum one-week voting period, then the new `Proposal` with
`id = active_proposal_count` and the counter increment. -/
def process_create_vote (proposer : Pubkey) (is_signer : Bool)
    (dep : Depositor) (dao : DaoState) (ptype : ProposalType)
    (new_value voting_period now : Nat) :
    Except ProgramError (DaoState × Proposal) :=
  if !is_signer then .error .missingRequiredSignature
  else if dep.pubkey ≠ proposer then .error .invalidAccountData
  else if voting_period < lock_period then .error .invalidArgument
  else .ok
    ({ dao with active_proposal_count := wadd dao.active_proposal_count 1 },
     { id := dao.active_proposal_count
       proposal_type := ptype
       new_value := new_value
       voting_end_time := wadd now voting_period
       yes_votes := 0
       no_votes := 0
       is_executed := false })

/-- Result of `process_vote`: the (possibly rewritten) `DaoState` and the
rewritten `Proposal`. -/
structure VoteResult where
  dao : DaoState
  proposal : Proposal
deriving Repr, DecidableEq

/-- `process_vote` from lib.rs: signer check, depositor-identity check,
`InvalidArgument` if `proposal.id != proposal_id` or if
`now > voting_end_time`; then the depositor's `voting_power` is added to the
chosen tally; finally, within the same call, if `now >= voting_end_time` and
the proposal is not yet executed and `yes_votes > no_votes`, the proposal's
`new_value` is applied to the `DaoState` field selected by `proposal_type`
and `is_executed` is set. -/
def process_vote (voter : Pubkey) (is_signer : Bool) (dep : Depositor)
    (dao : DaoState) (proposal : Proposal) (proposal_id : Nat)
    (approve : Bool) (now : Nat) : Except ProgramError VoteResult :=
  if !is_signer then .error .missingRequiredSignature
  else if dep.pubkey ≠ voter then .error .invalidAccountData
  else if proposal.id ≠ proposal_id then .error .invalidArgument
  else if now > proposal.voting_end_time then .error .invalidArgument
  else
    let p1 :=
      if approve then
        { proposal with yes_votes := wadd proposal.yes_votes dep.voting_power }
      else
        { proposal with no_votes := wadd proposal.no_votes dep.voting_power }
    if now ≥ p1.voting_end_time ∧ p1.is_executed = false then
      if p1.yes_votes > p1.no_votes then
        let dao' :=
          match p1.proposal_type with
          | .timeLimit => { dao with time_limit := p1.new_value }
          | .baseFee => { dao with base_fee := p1.new_value }
          | .aiModeration => { dao with ai_moderation := decide (p1.new_value ≠ 0) }
        .ok { dao := dao', proposal := { p1 with is_executed := true } }
      else
        .ok { dao := dao, proposal := p1 }
    else
      .ok { dao := dao, proposal := p1 }

/-- Result of `process_distribute_quality_rewards`: the rewritten `DaoState`
and the list of per-creator transfer amounts requested, in input order. -/
structure DistributeResult where
  dao : DaoState
  payouts : List Nat
deriving Repr, DecidableEq

/-- `process_distribute_quality_rewards` from lib.rs: signer check, admin
check, the `u8` weight-sum check (`sum != 100` is `InvalidArgument`), the
length check; then for each `(creator, weight)` pair a transfer of
`total_deposit * weight / 100` is requested, and `total_deposit` is set
to 0.  The per-entry creator-account match is modelled as satisfied: the
supplied accounts are the creator keys themselves. -/
def process_distribute_quality_rewards (admin_key : Pubkey) (is_signer : Bool)
    (dao : DaoState) (creator_pubkeys : List Pubkey)
    (distribution_weights : List Nat) :
    Except ProgramError DistributeResult :=
  if !is_signer then .error .missingRequiredSignature
  else if dao.admin ≠ admin_key then .error .invalidAccountData
  else if u8sum distribution_weights ≠ 100 then .error .invalidArgument
  else if creator_pubkeys.length ≠ distribution_weights.length then
    .error .invalidArgument
  else
    .ok
      { dao := { dao with total_deposit := 0 }
        payouts :=
          distribution_weights.map (fun w => wmul dao.total_deposit w / 100) }

/-- Repeated submissions: run `process_submit_content` (with a signing
submitter) once per clock value in `ts`, threading the `DaoState`. -/
def submit_run (submitter : Pubkey) (h u : String) :
    List Nat → DaoState → DaoState
  | [], dao => dao
  | t :: ts, dao =>
    match process_submit_content submitter true dao h u t with
    | .error _ => dao
    | .ok r => submit_run submitter h u ts r.dao

/-- Example DAO state used to instantiate theorems on concrete inputs
(admin 9, time limit 100, base fee 5, deposit share 20 percent,
last activity at 1000, pool of 1 000 000 000 lamports). -/
def daoEx : DaoState :=
  { admin := 9
    time_limit := 100
    base_fee := 5
    ai_moderation := false
    deposit_share := 20
    last_activity_timestamp := 1000
    total_deposit := 1000000000
    active_proposal_count := 0
    content_count := 0
    depositor_count := 0 }

/-- Example content record by author 1, submitted at the DAO's
`last_activity_timestamp`. -/
def contentEx : Content :=
  { author := 1
    content_hash := "h"
    content_uri := "u"
    timestamp := 1000
    votes := 0 }

/-- Example DAO with a 100-lamport pool, for the quality-distribution
theorems. -/
def dao100 : DaoState := { daoEx with total_deposit := 100 }

/-- Depositor storage: one optional `Depositor` record per storage-slot
index. -/
abbrev Slots := Nat → Option Depositor

/-- A Deposit call against the slot at index `ix` of a slot store: the
handler runs on that slot's content and the store is updated at that index
with the record the handler wrote. -/
def deposit_at (st : DaoState × Slots) (ix : Nat) (caller : Pubkey)
    (amount now : Nat) : Except ProgramError (DaoState × Slots) :=
  match process_deposit caller true st.1 (st.2 ix) amount now with
  | .error e => .error e
  | .ok r => .ok (r.dao, fun j => if j = ix then some r.slot else st.2 j)

/-- Repeated identical votes: run `process_vote` `n` times with the same
signing voter, depositor record, proposal id, choice and clock value,
threading the DAO state and proposal, stopping at the first error. -/
def vote_iter (voter : Pubkey) (dep : Depositor) (pid : Nat) (approve : Bool)
    (now : Nat) : Nat → DaoState × Proposal →
    Except ProgramError (DaoState × Proposal)
  | 0, s => .ok s
  | n + 1, s =>
    match process_vote voter true dep s.1 s.2 pid approve now with
    | .error e => .error e
    | .ok r => vote_iter voter dep pid approve now n (r.dao, r.proposal)

/-- Parameters of one Vote invocation, for reasoning about sequences of
calls against the same proposal account. -/
structure VoteCall where
  voter : Pubkey
  is_signer : Bool
  dep : Depositor
  pid : Nat
  approve : Bool
  now : Nat
deriving Repr, DecidableEq

/-- Apply one Vote invocation to a (DaoState, Proposal) pair; a failed call
leaves the stored records unchanged. -/
def vote_step (s : DaoState × Proposal) (c : VoteCall) : DaoState × Proposal :=
  match process_vote c.voter c.is_signer c.dep s.1 s.2 c.pid c.approve c.now with
  | .error _ => s
  | .ok r => (r.dao, r.proposal)

/-- Apply a sequence of Vote invocations in order. -/
def vote_run (s : DaoState × Proposal) (cs : List VoteCall) :
    DaoState × Proposal :=
  cs.foldl vote_step s

/-- A signed vote with matching depositor, matching proposal id and
`now ≤ voting_end_time` always succeeds; the result keeps the proposal's
`id` and `voting_end_time` and adds the depositor's `voting_power` to the
chosen tally. -/
theorem vote_open_ok (voter : Pubkey) (dep : Depositor) (dao : DaoState)
    (p : Proposal) (pid : Nat) (approve : Bool) (now : Nat)
    (hd : dep.pubkey = voter) (hid : p.id = pid)
    (hnow : now ≤ p.voting_end_time) :
    ∃ r, process_vote voter true dep dao p pid approve now = .ok r ∧
      r.proposal.id = p.id ∧
      r.proposal.voting_end_time = p.voting_end_time ∧
      r.proposal.yes_votes =
        (if approve then wadd p.yes_votes dep.voting_power else p.yes_votes) ∧
      r.proposal.no_votes =
        (if approve then p.no_votes else wadd p.no_votes dep.voting_power) := by
  have hlt : ¬ now > p.voting_end_time := Nat.not_lt.mpr hnow
  cases approve with
  | true =>
    unfold process_vote
    simp only [hd, hid, ne_eq, not_true_eq_false, if_false, hlt,
      Bool.not_true, Bool.false_eq_true, if_true]
    split_ifs <;> exact ⟨_, rfl, rfl, rfl, rfl, rfl⟩
  | false =>
    unfold process_vote
    simp only [hd, hid, ne_eq, not_true_eq_false, if_false, hlt,
      Bool.not_true, Bool.false_eq_true, if_true]
    split_ifs <;> exact ⟨_, rfl, rfl, rfl, rfl, rfl⟩

/-- Any vote arriving strictly after `voting_end_time` fails, whatever else
is in the call. -/
theorem process_vote_late (voter : Pubkey) (sgn : Bool) (dep : Depositor)
    (dao : DaoState) (p : Proposal) (pid : Nat) (approve : Bool) (now : Nat)
    (h : p.voting_end_time < now) :
    ∃ e, process_vote voter sgn dep dao p pid approve now = .error e := by
  unfold process_vote
  split_ifs <;> exact ⟨_, rfl⟩

/-- A vote arriving strictly after `voting_end_time` leaves the stored
records unchanged. -/
theorem vote_step_late (s : DaoState × Proposal) (c : VoteCall)
    (h : s.2.voting_end_time < c.now) : vote_step s c = s := by
  obtain ⟨e, he⟩ :=
    process_vote_late c.voter c.is_signer c.dep s.1 s.2 c.pid c.approve c.now h
  simp [vote_step, he]

/-- A successful vote on an already-executed proposal keeps it executed. -/
theorem vote_ok_keeps_executed (voter : Pubkey) (sgn : Bool) (dep : Depositor)
    (dao : DaoState) (p : Proposal) (pid : Nat) (approve : Bool) (now : Nat)
    (r : VoteResult) (hx : p.is_executed = true)
    (hr : process_vote voter sgn dep dao p pid approve now = .ok r) :
    r.proposal.is_executed = true := by
  obtain ⟨pi, pt, pv, pe, py, pn, px⟩ := p
  replace hx : px = true := hx
  subst hx
  cases approve with
  | true =>
    unfold process_vote at hr
    simp at hr
    split_ifs at hr
    all_goals first
      | (injection hr with hr; subst hr; rfl)
      | (injection hr)
      | (subst hr; rfl)
  | false =>
    unfold process_vote at hr
    simp at hr
    split_ifs at hr
    all_goals first
      | (injection hr with hr; subst hr; rfl)
      | (injection hr)
      | (subst hr; rfl)

/-- Unfolding equation for `vote_iter` at a successor count. -/
theorem vote_iter_succ (voter : Pubkey) (dep : Depositor) (pid : Nat)
    (approve : Bool) (now n : Nat) (dao : DaoState) (p : Proposal) :
    vote_iter voter dep pid approve now (n + 1) (dao, p) =
      match process_vote voter true dep dao p pid approve now with
      | .error e => .error e
      | .ok r => vote_iter voter dep pid approve now n (r.dao, r.proposal) :=
  rfl

/-- C5: Vote keeps no per-voter state.  For a signing depositor with a
matching record and a proposal still open (`now ≤ voting_end_time`), any
number `n` of successive identical Vote calls all succeed, and each call adds
the depositor's full `voting_power` to the chosen tally again: after `n`
calls the chosen tally equals its initial value plus `n * voting_power`
(mod 2^64), the other tally unchanged. -/
theorem vote_repeat_spec (voter : Pubkey) (dep : Depositor) (pid : Nat)
    (approve : Bool) (now n : Nat) :
    ∀ (dao : DaoState) (p : Proposal), dep.pubkey = voter → p.id = pid →
      now ≤ p.voting_end_time → p.yes_votes < U64M → p.no_votes < U64M →
    ∃ dao2 p2,
      vote_iter voter dep pid approve now n (dao, p) = .ok (dao2, p2) ∧
      p2.yes_votes =
        (if approve then (p.yes_votes + n * dep.voting_power) % U64M
         else p.yes_votes) ∧
      p2.no_votes =
        (if approve then p.no_votes
         else (p.no_votes + n * dep.voting_power) % U64M) := by
  induction n with
  | zero =>
    intro dao p _ _ _ hy hn
    refine ⟨dao, p, rfl, ?_, ?_⟩ <;> cases approve <;>
      simp [Nat.mod_eq_of_lt hy, Nat.mod_eq_of_lt hn]
  | succ n ih =>
    intro dao p hd hid hnow hy hn
    have hM : 0 < U64M := by decide
    obtain ⟨r, hr, hrid, hrend, hry, hrn⟩ :=
      vote_open_ok voter dep dao p pid approve now hd hid hnow
    have hy' : r.proposal.yes_votes < U64M := by
      rw [hry]
      cases approve
      · simpa using hy
      · simp only [if_true, wadd]
        exact Nat.mod_lt _ hM
    have hn' : r.proposal.no_votes < U64M := by
      rw [hrn]
      cases approve
      · simp only [Bool.false_eq_true, if_false, wadd]
        exact Nat.mod_lt _ hM
      · simpa using hn
    obtain ⟨dao2, p2, hiter, h2y, h2n⟩ :=
      ih r.dao r.proposal hd (hrid.trans hid)
        (by rw [hrend]; exact hnow) hy' hn'
    refine ⟨dao2, p2, ?_, ?_, ?_⟩
    · rw [vote_iter_succ, hr]
      exact hiter
    · cases approve
      · simpa [hry] using h2y
      · rw [h2y, hry]
        simp only [if_true, wadd, Nat.mod_add_mod]
        congr 1
        ring
    · cases approve
      · rw [h2n, hrn]
        simp only [Bool.false_eq_true, if_false, wadd, Nat.mod_add_mod]
        congr 1
        ring
      · simpa [hrn] using h2n

/-- Witness for C5: depositor 5 with voting power 40 casts three successive
yes votes on the same open proposal; all succeed and the yes tally reaches
120. -/
theorem vote_repeat_spec_witness :
    ∃ dao2 p2,
      vote_iter 5 ⟨5, 40, 0, 40⟩ 0 true 900 3
        (daoEx, ⟨0, .timeLimit, 42, 1000, 0, 0, false⟩) = .ok (dao2, p2) ∧
      p2.yes_votes = 120 ∧ p2.no_votes = 0 := by
  obtain ⟨dao2, p2, h1, h2, h3⟩ :=
    vote_repeat_spec 5 ⟨5, 40, 0, 40⟩ 0 true 900 3 daoEx
      ⟨0, .timeLimit, 42, 1000, 0, 0, false⟩ (by decide) (by decide)
      (by decide) (by decide) (by decide)
  exact ⟨dao2, p2, h1, by rw [h2]; decide, by rw [h3]; decide⟩

/-- C9: `is_executed` is a latch.  Over any sequence of Vote calls applied
to a proposal (failed calls leaving the records unchanged), once
`is_executed` is true it remains true; no call resets it to false. -/
theorem vote_executed_latch (s : DaoState × Proposal) (cs : List VoteCall)
    (hx : s.2.is_executed = true) :
    (vote_run s cs).2.is_executed = true := by
  induction cs generalizing s with
  | nil => exact hx
  | cons c cs ih =>
    have hstep : (vote_step s c).2.is_executed = true := by
      unfold vote_step
      cases hpv : process_vote c.voter c.is_signer c.dep s.1 s.2 c.pid
          c.approve c.now with
      | error e => exact hx
      | ok r =>
        exact vote_ok_keeps_executed c.voter c.is_signer c.dep s.1 s.2
          c.pid c.approve c.now r hx hpv
    exact ih _ hstep

/-- Witness for C9: an executed proposal voted on once more (a no vote at
the deadline) stays executed. -/
theorem vote_executed_latch_witness :
    (vote_run (daoEx, ⟨0, .timeLimit, 42, 1000, 0, 0, true⟩)
      [⟨5, true, ⟨5, 40, 0, 40⟩, 0, false, 1000⟩]).2.is_executed = true :=
  vote_executed_latch (daoEx, ⟨0, .timeLimit, 42, 1000, 0, 0, true⟩)
    [⟨5, true, ⟨5, 40, 0, 40⟩, 0, false, 1000⟩] (by decide)

/-- C10: Initialize succeeds for every `deposit_share` in `[0,100]`, writing
the fresh `DaoState` record with `admin = caller`, all counters zero and
`last_activity_timestamp = now`; for every `deposit_share > 100` it fails
with the parameter error before any record is written (the failure result
carries no record, and in the code the range check precedes the account
creation and serialization). -/
theorem init_dao_share_spec (payer : Pubkey) (tl bf : Nat) (ai : Bool)
    (share now : Nat) :
    (share ≤ 100 →
      process_init_dao payer true tl bf ai share now =
        .ok ⟨payer, tl, bf, ai, share, now, 0, 0, 0, 0⟩) ∧
    (share > 100 →
      process_init_dao payer true tl bf ai share now =
        .error .invalidArgument) := by
  constructor
  · intro h
    simp [process_init_dao, Nat.not_lt.mpr h]
  · intro h
    simp [process_init_dao, h]

/-- Witness for C10 at `deposit_share = 20` and `deposit_share = 101`. -/
theorem init_dao_share_spec_witness :
    process_init_dao 9 true 100 5 false 20 1000 =
      .ok ⟨9, 100, 5, false, 20, 1000, 0, 0, 0, 0⟩ ∧
    process_init_dao 9 true 100 5 false 101 1000 =
      .error .invalidArgument :=
  ⟨(init_dao_share_spec 9 100 5 false 20 1000).1 (by decide),
   (init_dao_share_spec 9 100 5 false 101 1000).2 (by decide)⟩

/-- C1: a signed ClaimReward succeeds exactly when the caller is the
content's author, `now` is at least `last_activity_timestamp + time_limit`,
and `content.timestamp` equals `last_activity_timestamp`; on success, with
pre-state `total_deposit = D` and `deposit_share = s`, the reward transferred
is `D - D*s/100` and the post-state `total_deposit` is `D*s/100`
(all arithmetic in truncating/wrapping u64, as the code performs it). -/
theorem claim_reward_spec (dao : DaoState) (content : Content)
    (claimer : Pubkey) (now : Nat) :
    ((∃ r, process_claim_reward claimer true dao content now = .ok r) ↔
      (content.author = claimer ∧
       wadd dao.last_activity_timestamp dao.time_limit ≤ now ∧
       content.timestamp = dao.last_activity_timestamp)) ∧
    (∀ r, process_claim_reward claimer true dao content now = .ok r →
      r.reward =
        wsub dao.total_deposit (wmul dao.total_deposit dao.deposit_share / 100) ∧
      r.dao.total_deposit = wmul dao.total_deposit dao.deposit_share / 100) := by
  unfold process_claim_reward
  simp only [Bool.not_true, Bool.false_eq_true, if_false]
  split_ifs with h1 h2 h3
  · simp [h1]
  · constructor
    · simp [Nat.not_le.mpr h2]
    · intro r hr
      exact absurd hr (by simp)
  · constructor
    · simp [h3]
    · intro r hr
      exact absurd hr (by simp)
  · refine ⟨⟨fun _ => ⟨not_ne_iff.mp h1, Nat.not_lt.mp h2, not_ne_iff.mp h3⟩,
      fun _ => ⟨_, rfl⟩⟩, ?_⟩
    intro r hr
    simp only [Except.ok.injEq] at hr
    subst hr
    exact ⟨rfl, rfl⟩

/-- Witness for C1 at the spec's example: pool `D = 1_000_000_000`,
`deposit_share = 20`, author 1 claiming at `now = 1100`:
reward `800_000_000`, remaining pool `200_000_000`. -/
theorem claim_reward_spec_witness :
    (∃ r, process_claim_reward 1 true daoEx contentEx 1100 = .ok r) ∧
    (∀ r, process_claim_reward 1 true daoEx contentEx 1100 = .ok r →
      r.reward = 800000000 ∧ r.dao.total_deposit = 200000000) := by
  refine ⟨(claim_reward_spec daoEx contentEx 1 1100).1.mpr (by decide), ?_⟩
  intro r hr
  have h := (claim_reward_spec daoEx contentEx 1 1100).2 r hr
  simpa [daoEx, wsub, wmul, U64M] using h

/-- C7: every successful SubmitContent sets `last_activity_timestamp` equal
to the new content's `timestamp` and increments `content_count` by one
(mod 2^64); a sequence of `N` signed submissions increments `content_count`
by `N` (mod 2^64). -/
theorem submit_content_spec (submitter : Pubkey) (dao : DaoState)
    (h u : String) (now : Nat) (ts : List Nat)
    (hc : dao.content_count < U64M) :
    (∀ r, process_submit_content submitter true dao h u now = .ok r →
      r.dao.last_activity_timestamp = r.content.timestamp ∧
      r.dao.content_count = (dao.content_count + 1) % U64M) ∧
    (submit_run submitter h u ts dao).content_count =
      (dao.content_count + ts.length) % U64M := by
  constructor
  · intro r hr
    simp only [process_submit_content, Bool.not_true, Bool.false_eq_true,
      if_false, Except.ok.injEq] at hr
    subst hr
    exact ⟨rfl, rfl⟩
  · induction ts generalizing dao with
    | nil => simpa [submit_run] using (Nat.mod_eq_of_lt hc).symm
    | cons t ts ih =>
      have hM : 0 < U64M := by decide
      have key := ih
        { dao with
          last_activity_timestamp := t
          content_count := wadd dao.content_count 1 }
        (Nat.mod_lt _ hM)
      simp only [submit_run, process_submit_content, Bool.not_true,
        Bool.false_eq_true, if_false]
      refine key.trans ?_
      simp only [wadd, List.length_cons, Nat.mod_add_mod]
      congr 1
      omega

/-- Witness for C7: one submission at time 2000, then three more. -/
theorem submit_content_spec_witness :
    (∀ r, process_submit_content 3 true daoEx "h" "u" 2000 = .ok r →
      r.dao.last_activity_timestamp = r.content.timestamp ∧
      r.dao.content_count = 1) ∧
    (submit_run 3 "h" "u" [2000, 2001, 2002] daoEx).content_count = 3 := by
  have h := submit_content_spec 3 daoEx "h" "u" 2000 [2000, 2001, 2002]
    (by decide)
  constructor
  · intro r hr
    have := h.1 r hr
    simpa [daoEx, U64M] using this
  · have := h.2
    simpa [daoEx, U64M] using this

/-- C8: with a signing voter whose depositor record matches, Vote fails with
the proposal-argument error whenever the supplied record's `id` differs from
the `proposal_id` argument; it fails with the same error whenever
`now > voting_end_time` (regardless of the id); and a vote cast at exactly
`voting_end_time` with a matching id is accepted — the closing check is
strict greater-than. -/
theorem vote_closing_spec (voter : Pubkey) (dep : Depositor) (dao : DaoState)
    (p : Proposal) (pid : Nat) (approve : Bool) (now : Nat)
    (hd : dep.pubkey = voter) :
    (p.id ≠ pid →
      process_vote voter true dep dao p pid approve now =
        .error .invalidArgument) ∧
    (now > p.voting_end_time →
      process_vote voter true dep dao p pid approve now =
        .error .invalidArgument) ∧
    (now = p.voting_end_time → p.id = pid →
      ∃ r, process_vote voter true dep dao p pid approve now = .ok r) := by
  refine ⟨?_, ?_, ?_⟩
  · intro hid
    simp [process_vote, hd, hid]
  · intro hnow
    by_cases hid : p.id = pid
    · simp [process_vote, hd, hid, hnow]
    · simp [process_vote, hd, hid]
  · intro hnow hid
    unfold process_vote
    simp only [hd, ne_eq, not_true_eq_false, if_false, hid, hnow,
      lt_irrefl, Bool.not_true, Bool.false_eq_true]
    split_ifs <;> exact ⟨_, rfl⟩

/-- Witness for C8: depositor 5 voting on proposal 0 (ends at 1000):
id mismatch rejected, vote at 1001 rejected, vote at exactly 1000 accepted. -/
theorem vote_closing_spec_witness :
    (process_vote 5 true ⟨5, 40, 0, 40⟩ daoEx
        ⟨0, .timeLimit, 42, 1000, 0, 0, false⟩ 7 true 900 =
      .error .invalidArgument) ∧
    (process_vote 5 true ⟨5, 40, 0, 40⟩ daoEx
        ⟨0, .timeLimit, 42, 1000, 0, 0, false⟩ 0 true 1001 =
      .error .invalidArgument) ∧
    (∃ r, process_vote 5 true ⟨5, 40, 0, 40⟩ daoEx
        ⟨0, .timeLimit, 42, 1000, 0, 0, false⟩ 0 true 1000 = .ok r) := by
  have h := vote_closing_spec 5 ⟨5, 40, 0, 40⟩ daoEx
    ⟨0, .timeLimit, 42, 1000, 0, 0, false⟩
  exact ⟨(h 7 true 900 rfl).1 (by decide),
         (h 0 true 1001 rfl).2.1 (by decide),
         (h 0 true 1000 rfl).2.2 (by decide) (by decide)⟩

/-- A Deposit against an empty slot takes the create branch: fresh record,
`depositor_count` incremented, pool increased. -/
theorem deposit_at_empty (dao : DaoState) (sl : Slots) (ix : Nat)
    (caller : Pubkey) (amount now : Nat) (h : sl ix = none) :
    deposit_at (dao, sl) ix caller amount now =
      .ok ({ dao with
               total_deposit := wadd dao.total_deposit amount
               depositor_count := wadd dao.depositor_count 1 },
           fun j => if j = ix then
               some ⟨caller, amount, wadd now lock_period, amount⟩
             else sl j) := by
  unfold deposit_at
  simp [process_deposit, h]

/-- A Deposit against a slot holding the caller's own record takes the
update branch: cumulative amount, refreshed lock, recomputed voting power,
no new depositor counted. -/
theorem deposit_at_match (dao : DaoState) (sl : Slots) (ix : Nat)
    (d : Depositor) (caller : Pubkey) (amount now : Nat)
    (h : sl ix = some d) (hp : d.pubkey = caller) :
    deposit_at (dao, sl) ix caller amount now =
      .ok ({ dao with total_deposit := wadd dao.total_deposit amount },
           fun j => if j = ix then
               some ⟨d.pubkey, wadd d.amount amount, wadd now lock_period,
                     wadd d.amount amount⟩
             else sl j) := by
  unfold deposit_at
  simp [process_deposit, h, hp]

/-- C2 counterexample: proposal 0 has accumulated `yes_votes = 800 >
no_votes = 200` and `voting_end_time = 100`; one more vote cast after
`voting_end_time` (`now = 101 > 100`) by a valid signing depositor does not
transition the proposal to executed — the call is rejected with the
proposal-argument error and changes nothing, contradicting the claim that a
vote cast at or after `voting_end_time` executes the winning proposal. -/
theorem vote_after_deadline_cex :
    (800 > 200) ∧ (100 < 101) ∧
    process_vote 5 true ⟨5, 100, 0, 100⟩ daoEx
        ⟨0, .timeLimit, 42, 100, 800, 200, false⟩ 0 true 101 =
      .error .invalidArgument :=
  ⟨by decide, by decide, rfl⟩

/-- C2 (amended): for a signing depositor with matching record, matching
proposal id and a not-yet-executed proposal: a vote cast exactly at
`voting_end_time` executes the proposal — sets `is_executed = true` and
applies `new_value` to the DaoState field selected by `proposal_type` —
provided the tally including this vote satisfies `yes_votes > no_votes`;
if instead the tally including this vote has `yes_votes ≤ no_votes`, the
call leaves `is_executed = false` and the DaoState unchanged; a vote cast
strictly after `voting_end_time` fails with the proposal-argument error;
and any sequence of Vote calls, all cast strictly after `voting_end_time`,
leaves the records exactly as they were — a rejected proposal can only be
revisited by votes landing exactly at the deadline. -/
theorem vote_execution_spec (voter : Pubkey) (dep : Depositor)
    (dao : DaoState) (p : Proposal) (pid : Nat) (approve : Bool) (now : Nat)
    (hd : dep.pubkey = voter) (hid : p.id = pid)
    (hx : p.is_executed = false) :
    (now = p.voting_end_time →
      (((if approve then wadd p.yes_votes dep.voting_power else p.yes_votes) >
        (if approve then p.no_votes else wadd p.no_votes dep.voting_power) →
        ∃ r, process_vote voter true dep dao p pid approve now = .ok r ∧
          r.proposal.is_executed = true ∧
          r.dao.time_limit =
            (if p.proposal_type = .timeLimit then p.new_value
             else dao.time_limit) ∧
          r.dao.base_fee =
            (if p.proposal_type = .baseFee then p.new_value
             else dao.base_fee) ∧
          r.dao.ai_moderation =
            (if p.proposal_type = .aiModeration then decide (p.new_value ≠ 0)
             else dao.ai_moderation)) ∧
       ((if approve then wadd p.yes_votes dep.voting_power else p.yes_votes) ≤
        (if approve then p.no_votes else wadd p.no_votes dep.voting_power) →
        ∃ r, process_vote voter true dep dao p pid approve now = .ok r ∧
          r.proposal.is_executed = false ∧ r.dao = dao))) ∧
    (p.voting_end_time < now →
      process_vote voter true dep dao p pid approve now =
        .error .invalidArgument) ∧
    (∀ cs : List VoteCall, (∀ c ∈ cs, p.voting_end_time < c.now) →
      vote_run (dao, p) cs = (dao, p)) := by
  refine ⟨?_, ?_, ?_⟩
  · intro hnow
    subst hnow
    constructor
    · intro hgt
      cases approve with
      | true =>
        simp only [if_true] at hgt
        rcases hpt : p.proposal_type with _ | _ | _ <;>
        · unfold process_vote
          rw [if_neg (by simp), if_neg (by simp [hd]), if_neg (by simp [hid]),
            if_neg (by simp)]
          simp only [if_true, hpt]
          rw [if_pos ⟨le_refl _, hx⟩, if_pos hgt]
          exact ⟨_, rfl, rfl, by simp, by simp, by simp⟩
      | false =>
        simp only [Bool.false_eq_true, if_false] at hgt
        rcases hpt : p.proposal_type with _ | _ | _ <;>
        · unfold process_vote
          rw [if_neg (by simp), if_neg (by simp [hd]), if_neg (by simp [hid]),
            if_neg (by simp)]
          simp only [Bool.false_eq_true, if_false, hpt]
          rw [if_pos ⟨le_refl _, hx⟩, if_pos hgt]
          exact ⟨_, rfl, rfl, by simp, by simp, by simp⟩
    · intro hle
      cases approve with
      | true =>
        simp only [if_true] at hle
        unfold process_vote
        rw [if_neg (by simp), if_neg (by simp [hd]), if_neg (by simp [hid]),
          if_neg (by simp)]
        simp only [if_true]
        rw [if_pos ⟨le_refl _, hx⟩, if_neg (by omega)]
        exact ⟨_, rfl, hx, rfl⟩
      | false =>
        simp only [Bool.false_eq_true, if_false] at hle
        unfold process_vote
        rw [if_neg (by simp), if_neg (by simp [hd]), if_neg (by simp [hid]),
          if_neg (by simp)]
        simp only [Bool.false_eq_true, if_false]
        rw [if_pos ⟨le_refl _, hx⟩, if_neg (by omega)]
        exact ⟨_, rfl, hx, rfl⟩
  · intro hlate
    unfold process_vote
    rw [if_neg (by simp), if_neg (by simp [hd]), if_neg (by simp [hid]),
      if_pos hlate]
  · intro cs
    induction cs with
    | nil => intro _; rfl
    | cons c cs ih =>
      intro hcs
      have h1 : vote_step (dao, p) c = (dao, p) :=
        vote_step_late (dao, p) c (hcs c (List.mem_cons_self c cs))
      calc vote_run (dao, p) (c :: cs)
          = vote_run (vote_step (dao, p) c) cs := rfl
        _ = vote_run (dao, p) cs := by rw [h1]
        _ = (dao, p) := ih (fun c' hc' => hcs c' (List.mem_cons_of_mem c hc'))

/-- Witness for the amended C2: yes 800 / no 200 accumulated, one more yes
vote with power 40 at exactly the deadline 1000 executes the TimeLimit
proposal and sets `time_limit = 42`. -/
theorem vote_execution_spec_witness :
    ∃ r, process_vote 5 true ⟨5, 40, 0, 40⟩ daoEx
        ⟨0, .timeLimit, 42, 1000, 800, 200, false⟩ 0 true 1000 = .ok r ∧
      r.proposal.is_executed = true ∧ r.dao.time_limit = 42 := by
  obtain ⟨hexec, hrej⟩ := (vote_execution_spec 5 ⟨5, 40, 0, 40⟩ daoEx
    ⟨0, .timeLimit, 42, 1000, 800, 200, false⟩ 0 true 1000 rfl rfl rfl).1 rfl
  obtain ⟨r, h1, h2, h3, h4, h5⟩ := hexec (by decide)
  exact ⟨r, h1, h2, by rw [h3]; decide⟩

/-- C4 counterexample: a Deposit by caller 5 against a slot occupied by a
Depositor record of identity 7 does not fail with InvalidAccountData — the
handler takes the create branch, requesting account creation on the
occupied slot and overwriting it with a fresh record for the caller. -/
theorem deposit_mismatch_cex :
    (7 ≠ 5) ∧
    process_deposit 5 true daoEx (some ⟨7, 50, 0, 50⟩) 100 1000 =
      .ok ⟨{ daoEx with total_deposit := 1000000100, depositor_count := 1 },
           ⟨5, 100, 605800, 100⟩, true⟩ :=
  ⟨by decide, rfl⟩

/-- C4 (amended): when the supplied depositor slot is occupied by a record
whose pubkey differs from the caller's, the handler does not fail with
InvalidAccountData (no such check exists); it treats the slot as free —
`found` stays false — requests `create_account` on the occupied slot,
writes a fresh record for the caller, and increments `depositor_count`;
only the external account-creation request can reject the call. -/
theorem deposit_mismatch_spec (dao : DaoState) (d : Depositor)
    (caller : Pubkey) (amount now : Nat) (hm : d.pubkey ≠ caller) :
    process_deposit caller true dao (some d) amount now =
      .ok ⟨{ dao with
               total_deposit := wadd dao.total_deposit amount
               depositor_count := wadd dao.depositor_count 1 },
           ⟨caller, amount, wadd now lock_period, amount⟩, true⟩ := by
  simp [process_deposit, hm]

/-- Witness for the amended C4 at caller 6 against a slot of identity 7. -/
theorem deposit_mismatch_spec_witness :
    process_deposit 6 true daoEx (some ⟨7, 50, 0, 50⟩) 200 0 =
      .ok ⟨{ daoEx with
               total_deposit := wadd daoEx.total_deposit 200
               depositor_count := wadd daoEx.depositor_count 1 },
           ⟨6, 200, wadd 0 lock_period, 200⟩, true⟩ :=
  deposit_mismatch_spec daoEx ⟨7, 50, 0, 50⟩ 6 200 0 (by decide)

/-- C6: starting from an empty slot `s1`, two sequential Deposits of `a`
then `b` by identity `k1` against `s1` leave a record with
`amount = (a+b) mod 2^64` and `voting_power = (a+b) mod 2^64` (voting power
recomputed to equal the cumulative amount); a following Deposit by a second
identity `k2` into a distinct empty slot `s2` leaves the first depositor's
record unchanged and increments `depositor_count` by exactly one. -/
theorem deposit_accumulate_spec (dao : DaoState) (sl : Slots)
    (k1 k2 : Pubkey) (s1 s2 a b c t1 t2 t3 : Nat)
    (h1 : sl s1 = none) (h2 : sl s2 = none) (hs : s2 ≠ s1) (hk : k2 ≠ k1) :
    ∃ st1 st2 st3,
      deposit_at (dao, sl) s1 k1 a t1 = .ok st1 ∧
      deposit_at st1 s1 k1 b t2 = .ok st2 ∧
      st2.2 s1 =
        some ⟨k1, (a + b) % U64M, wadd t2 lock_period, (a + b) % U64M⟩ ∧
      deposit_at st2 s2 k2 c t3 = .ok st3 ∧
      st3.2 s1 = st2.2 s1 ∧
      st3.1.depositor_count = wadd st2.1.depositor_count 1 := by
  refine ⟨_, _, _, deposit_at_empty dao sl s1 k1 a t1 h1,
    deposit_at_match _ _ s1 ⟨k1, a, wadd t1 lock_period, a⟩ k1 b t2
      (by simp) rfl,
    ?_, deposit_at_empty _ _ s2 k2 c t3 (by simp [hs, h2]), ?_, ?_⟩
  · simp [wadd]
  · have hs' : ¬ (s1 = s2) := fun h => hs h.symm
    simp [hs']
  · rfl

/-- Witness for C6: deposits of 300 then 400 by identity 1 into slot 0 give
amount and voting power 700; a deposit of 500 by identity 2 into slot 1
leaves slot 0 unchanged and bumps `depositor_count`. -/
theorem deposit_accumulate_spec_witness :
    ∃ st1 st2 st3,
      deposit_at (daoEx, fun _ => none) 0 1 300 0 = .ok st1 ∧
      deposit_at st1 0 1 400 1 = .ok st2 ∧
      st2.2 0 = some ⟨1, 700 % U64M, wadd 1 lock_period, 700 % U64M⟩ ∧
      deposit_at st2 1 2 500 2 = .ok st3 ∧
      st3.2 0 = st2.2 0 ∧
      st3.1.depositor_count = wadd st2.1.depositor_count 1 :=
  deposit_accumulate_spec daoEx (fun _ => none) 1 2 0 1 300 400 500 0 1 2
    rfl rfl (by decide) (by decide)

/-- C3: the weight-sum validation of DistributeQualityRewards is computed in
`u8` and wraps.  The weights `[100, 100, 156]` sum to 356 ≠ 100, yet their
`u8` sum is 100, so the admin-signed call succeeds instead of failing with
InvalidDistribution — and the per-entry payouts it requests
(100 + 100 + 156 = 356 lamports) exceed the 100-lamport pool, after which
`total_deposit` is zeroed.  This contradicts the code's own documentation
("Distribution weights (must sum to 100)", "Validate distribution weights
sum to 100%"). -/
theorem distribute_weight_wrap_bug :
    ([100, 100, 156] : List Nat).sum = 356 ∧
    u8sum [100, 100, 156] = 100 ∧
    process_distribute_quality_rewards 9 true dao100 [1, 2, 3]
        [100, 100, 156] =
      .ok ⟨{ dao100 with total_deposit := 0 }, [100, 100, 156]⟩ ∧
    100 + 100 + 156 > dao100.total_deposit :=
  ⟨by decide, by decide, rfl, by decide⟩
